import Mathlib

/-!
Verification of the malrot API event-query pipeline (src/api.js).

The handler of `GET /v1/events` is embedded shallowly: JavaScript numbers
are modelled as `Option ℚ` (`none` plays the role of `NaN`, and every
comparison against `none` is `false`, as every JS comparison against `NaN`
is), query parameters as `Option String` (absent parameter = `none`), and
the JS truthiness test `if (req.query.x)` as presence of a non-empty
string.  String primitives (`split`, `trim`, case mapping) are implemented
structurally over `String.data` so that every definition evaluates inside
the kernel.  The external collaborators are made explicit: the remote
listing result is a parameter of the handler, and the `@turf/distance`
great-circle function is a function parameter of the proximity stage.
-/

set_option maxRecDepth 100000

namespace Malrot

/-- A JavaScript number: `none` stands for `NaN` (and for `undefined`
coerced through an arithmetic comparison, which behaves identically). -/
abbrev JSNum := Option ℚ

/-- JS `<` on numbers: any comparison involving NaN is false. -/
def jsLt : JSNum → JSNum → Bool
  | some a, some b => decide (a < b)
  | _, _ => false

/-- JS `>` on numbers: any comparison involving NaN is false. -/
def jsGt : JSNum → JSNum → Bool
  | some a, some b => decide (b < a)
  | _, _ => false

/-- JS `<=` on numbers: any comparison involving NaN is false. -/
def jsLe : JSNum → JSNum → Bool
  | some a, some b => decide (a ≤ b)
  | _, _ => false

/-- The comparison `e.distance < r` where the `distance` property may be absent
(`undefined < r` is false, through the NaN coercion). -/
def jsLtOpt : Option JSNum → JSNum → Bool
  | some d, x => jsLt d x
  | none, _ => false

/-- Model of `String.prototype.split` with a one-character separator, on the
character list; `[]` splits to `[[]]` as JS `"".split(",")` is `[""]`. -/
def splitOnC (sep : Char) : List Char → List (List Char)
  | [] => [[]]
  | c :: cs =>
    if c == sep then [] :: splitOnC sep cs
    else
      match splitOnC sep cs with
      | [] => [[c]]
      | h :: t => (c :: h) :: t

/-- JS `split` with a one-character separator on strings. -/
def jsSplit (s : String) (sep : Char) : List String :=
  (splitOnC sep s.data).map (fun l => ⟨l⟩)

def isJsWs (c : Char) : Bool :=
  c == ' ' || c == '\t' || c == '\n' || c == '\r'

/-- Model of `String.prototype.trim` on the character list. -/
def trimC (l : List Char) : List Char :=
  ((l.dropWhile isJsWs).reverse.dropWhile isJsWs).reverse

def natOfDigitsC (l : List Char) : Nat :=
  l.foldl (fun n c => 10 * n + (c.toNat - 48)) 0

/-- Decimal mantissa of a JS numeric literal: digits, or digits on either
side of one dot (at least one digit overall). -/
def jsMantissaC (m : List Char) : Option ℚ :=
  match splitOnC '.' m with
  | [a] =>
      if !a.isEmpty && a.all Char.isDigit then some ((natOfDigitsC a : ℚ)) else none
  | [a, b] =>
      if (!a.isEmpty || !b.isEmpty) && a.all Char.isDigit && b.all Char.isDigit then
        some ((natOfDigitsC a : ℚ) + (natOfDigitsC b : ℚ) / (10 : ℚ) ^ b.length)
      else none
  | _ => none

/-- Model of the JS `Number(string)` coercion on the finite decimal forms:
the trimmed empty string is `0`, otherwise an optional sign, a decimal
mantissa and an optional exponent; anything else (in particular any
alphabetic token) is NaN.  (The special forms `Infinity` and hex literals
are modelled as NaN; no claim depends on them.) -/
def jsNumberC (l : List Char) : JSNum :=
  let t := trimC l
  if t.isEmpty then some 0
  else
    let sgn : ℚ := if t.head? == some '-' then -1 else 1
    let r := if t.head? == some '-' || t.head? == some '+' then t.tail else t
    match splitOnC 'e' (r.map Char.toLower) with
    | [m] => (jsMantissaC m).map (fun x => sgn * x)
    | [m, ex] =>
        let esgn : ℤ := if ex.head? == some '-' then -1 else 1
        let ed := if ex.head? == some '-' || ex.head? == some '+' then ex.tail else ex
        match jsMantissaC m,
              (if !ed.isEmpty && ed.all Char.isDigit then some (natOfDigitsC ed) else none) with
        | some mv, some ev => some (sgn * mv * (10 : ℚ) ^ (esgn * (ev : ℤ)))
        | _, _ => none
    | _ => none

/-- The JS `Number(s)` coercion on a string. -/
def jsNumber (s : String) : JSNum :=
  jsNumberC s.data

/-- JS truthiness of an express query parameter: present and non-empty
(`req.query.x` is `undefined` when absent, and `""` is falsy). -/
def truthy : Option String → Bool
  | none => false
  | some s => !s.data.isEmpty

/-- Indexing `l[i]` on a JS array of numbers: out-of-range gives `undefined`, which
the numeric uses coerce to NaN. -/
def jsIdx (l : List JSNum) (i : Nat) : JSNum :=
  l.getD i none

/-- The coercion `Number(l[i])` on a JS array of strings (used where api.js indexes the
raw `split(",")` tokens and lets arithmetic coerce them). -/
def strTok (l : List String) (i : Nat) : JSNum :=
  match l.get? i with
  | some t => jsNumber t
  | none => none

/-- One entry of the 400 payload: `errors.push({ code, message })`. -/
structure ValidationError where
  code : String
  message : String
deriving DecidableEq

/-- Validation of the `org` parameter (api.js lines 61-72). -/
def orgErrors (s : String) : List ValidationError :=
  (if s.data.contains ',' then
    [⟨"wrong_org_param", "Org must be a unique value"⟩] else []) ++
  (if s.data != s.data.map Char.toLower then
    [⟨"wrong_org_param", "Org must be in lowercase"⟩] else [])

/-- The token list `req.query.around.split(",").map(Number)` (api.js lines 76-77). -/
def aroundTokens (s : String) : List JSNum :=
  (jsSplit s ',').map jsNumber

def aroundParseError : ValidationError :=
  ⟨"wrong_around_param", "Around param must be a list of 3 numbers, separated by commas"⟩

def aroundLonError : ValidationError :=
  ⟨"wrong_around_param", "Longitude must be between -180 (inclusive) and 180 (exclusive)"⟩

def aroundLatError : ValidationError :=
  ⟨"wrong_around_param", "Latitude must be between -90 and 90"⟩

def aroundRadError : ValidationError :=
  ⟨"wrong_around_param", "Distance must be greater than 0"⟩

/-- Validation of the `around` parameter (api.js lines 75-104): the parse
check `isNaN(around[0]) || isNaN(around[1]) || isNaN(around[2]) ||
around.length !== 3`, then the three range checks, each evaluated
independently with JS NaN comparison semantics. -/
def aroundErrors (s : String) : List ValidationError :=
  (if (jsIdx (aroundTokens s) 0).isNone || (jsIdx (aroundTokens s) 1).isNone ||
      (jsIdx (aroundTokens s) 2).isNone || (aroundTokens s).length != 3 then
    [aroundParseError] else []) ++
  (if jsLe (jsIdx (aroundTokens s) 0) (some (-180)) || jsGt (jsIdx (aroundTokens s) 0) (some 180) then
    [aroundLonError] else []) ++
  (if jsLt (jsIdx (aroundTokens s) 1) (some (-90)) || jsGt (jsIdx (aroundTokens s) 1) (some 90) then
    [aroundLatError] else []) ++
  (if jsLt (jsIdx (aroundTokens s) 2) (some 0) then
    [aroundRadError] else [])

/-- Validation of one country code (api.js lines 109-125): uppercase check,
letter-presence check `/[a-zA-Z]/.test(c)`, and exact-length-2 check, each
pushing an error keyed by the code's literal value. -/
def countryCodeErrors (c : String) : List ValidationError :=
  (if c.data != c.data.map Char.toUpper then
    [⟨"wrong_country_param/" ++ c, "ISO 3166-1 alpha-2 country code must be in uppercase"⟩] else []) ++
  (if !(c.data.any Char.isAlpha) then
    [⟨"wrong_country_param/" ++ c, "ISO 3166-1 alpha-2 country code must be only letters"⟩] else []) ++
  (if c.data.length != 2 then
    [⟨"wrong_country_param/" ++ c, "ISO 3166-1 alpha-2 country code must be 2-letter long"⟩] else [])

/-- Validation of the `country` parameter (api.js lines 107-126): split on
comma, validate each code independently, in order. -/
def countryErrors (s : String) : List ValidationError :=
  (jsSplit s ',').bind countryCodeErrors

/-- Validation of the `updated_at` parameter (api.js lines 129-141). -/
def updatedAtErrors (s : String) : List ValidationError :=
  (if (jsNumber s).isNone then
    [⟨"wrong_updated_at_param", "Updated_at must be a number"⟩] else []) ++
  (if jsLt (jsNumber s) (some 0) then
    [⟨"wrong_updated_at_param", "Updated_at must be greater than 0"⟩] else [])

/-- The raw query of `GET /v1/events`; each recognized parameter is absent
or a string. -/
structure QueryReq where
  org : Option String
  around : Option String
  country : Option String
  updated_at : Option String
  updated_after : Option String
deriving DecidableEq

/-- The full `errors` array collected by the handler (api.js lines 57-141),
in push order: org, around, country, updated_at.  Note `updated_after` is
never examined here. -/
def validationErrors (q : QueryReq) : List ValidationError :=
  (if truthy q.org then orgErrors (q.org.getD "") else []) ++
  (if truthy q.around then aroundErrors (q.around.getD "") else []) ++
  (if truthy q.country then countryErrors (q.country.getD "") else []) ++
  (if truthy q.updated_at then updatedAtErrors (q.updated_at.getD "") else [])

/-- The public base URL `https://api.malrot.org` (api.js line 12). -/
def MALROT_URL : String := "https://api.malrot.org"

/-- A raw GCP-storage object as the listing returns it: an identifier,
metadata fields and two ISO-8601 timestamps, all strings. -/
structure RawObject where
  name : String
  title : String
  country : String
  longitude : String
  latitude : String
  timeCreated : String
  updated : String
deriving DecidableEq

/-- A projected event (api.js lines 159-169); `distance` is `none` until
the proximity stage sets the field, and `some NaN-or-value` afterwards. -/
structure Event where
  title : String
  endpoint : String
  created_at : JSNum
  updated_at : JSNum
  country : String
  longitude : JSNum
  latitude : JSNum
  distance : Option JSNum
deriving DecidableEq

def isLeap (y : Nat) : Bool :=
  y % 4 == 0 && (y % 100 != 0 || y % 400 == 0)

def daysInMonth (y m : Nat) : Nat :=
  if m == 2 then (if isLeap y then 29 else 28)
  else if m == 4 || m == 6 || m == 9 || m == 11 then 30
  else 31

/-- Days from 1970-01-01 to the Gregorian date y-m-d (the standard
civil-from-days algorithm, for year ≥ 1). -/
def daysFromCivil (y m d : Nat) : ℤ :=
  let yy := if m ≤ 2 then y - 1 else y
  let era := yy / 400
  let yoe := yy % 400
  let mp := (m + 9) % 12
  let doy := (153 * mp + 2) / 5 + d - 1
  let doe := yoe * 365 + yoe / 4 - yoe / 100 + doy
  (era * 146097 + doe : ℤ) - 719468

/-- Parse `YYYY-MM-DD` with basic calendar validation. -/
def parseYMD (s : String) : Option (Nat × Nat × Nat) :=
  match splitOnC '-' s.data with
  | [ys, ms, ds] =>
    if ys.length == 4 && ms.length == 2 && ds.length == 2 &&
       ys.all Char.isDigit && ms.all Char.isDigit && ds.all Char.isDigit then
      let y := natOfDigitsC ys
      let m := natOfDigitsC ms
      let d := natOfDigitsC ds
      if 1 ≤ m ∧ m ≤ 12 ∧ 1 ≤ d ∧ d ≤ daysInMonth y m then some (y, m, d) else none
    else none
  | _ => none

def parseHMS (hc mc sc : List Char) (msec : Nat) : Option (Nat × Nat × Nat × Nat) :=
  if hc.length == 2 && mc.length == 2 && sc.length == 2 &&
     hc.all Char.isDigit && mc.all Char.isDigit && sc.all Char.isDigit then
    let h := natOfDigitsC hc
    let mi := natOfDigitsC mc
    let se := natOfDigitsC sc
    if h ≤ 23 ∧ mi ≤ 59 ∧ se ≤ 59 then some (h, mi, se, msec) else none
  else none

/-- Parse `HH:MM:SS` with an optional fractional part (kept to millisecond
precision). -/
def parseTime (s : String) : Option (Nat × Nat × Nat × Nat) :=
  match splitOnC ':' s.data with
  | [hc, mc, rest] =>
    match splitOnC '.' rest with
    | [sc] => parseHMS hc mc sc 0
    | [sc, frac] =>
      if !frac.isEmpty && frac.all Char.isDigit then
        parseHMS hc mc sc (natOfDigitsC (frac.take 3) * 10 ^ (3 - min 3 frac.length))
      else none
    | _ => none
  | _ => none

/-- The date and time fields of a UTC (`Z`-suffixed) ISO-8601 timestamp. -/
def isoParts (s : String) : Option ((Nat × Nat × Nat) × (Nat × Nat × Nat × Nat)) :=
  match splitOnC 'T' s.data with
  | [dc, tc] =>
    match tc.getLast? with
    | some 'Z' =>
      match parseYMD ⟨dc⟩, parseTime ⟨tc.dropLast⟩ with
      | some ymd, some hmsm => some (ymd, hmsm)
      | _, _ => none
    | _ => none
  | _ => none

/-- Model of `getTime(parseISO(s))` from date-fns (api.js lines 163-164):
the epoch time in MILLISECONDS of the timestamp (date-fns `getTime` returns
milliseconds since the Unix epoch), NaN on an unparseable string.  The
model covers `Z`-suffixed UTC timestamps, which is what the GCP listing
emits; a string without an explicit UTC offset would be interpreted in the
host's local time zone and is modelled as NaN. -/
def getTimeParseISO (s : String) : JSNum :=
  (isoParts s).map fun p =>
    match p with
    | ((y, m, d), (h, mi, se, ms)) =>
      (((daysFromCivil y m d * 86400 + h * 3600 + mi * 60 + se) * 1000 + ms : ℤ) : ℚ)

/-- Modelled from the spec: `created_at`/`updated_at` "parsed from ISO-8601
timestamp strings to epoch seconds" — the epoch time in SECONDS of the same
timestamp (fractional seconds kept exactly). -/
def specEpochSeconds (s : String) : JSNum :=
  (isoParts s).map fun p =>
    match p with
    | ((y, m, d), (h, mi, se, ms)) =>
      ((daysFromCivil y m d * 86400 + h * 3600 + mi * 60 + se : ℤ) : ℚ) + (ms : ℚ) / 1000

/-- The event projection (api.js lines 159-169). -/
def projectEvent (o : RawObject) : Event :=
  { title := o.title
    endpoint := MALROT_URL ++ "/v1/events/" ++ o.name
    created_at := getTimeParseISO o.timeCreated
    updated_at := getTimeParseISO o.updated
    country := o.country
    longitude := jsNumber o.longitude
    latitude := jsNumber o.latitude
    distance := none }

/-- The membership test `country.includes(event.country)` (api.js line 175). -/
def jsIncludes (l : List String) (x : String) : Bool :=
  l.any (fun t => t.data == x.data)

/-- The country filter (api.js lines 173-176). -/
def countryFilter (s : String) (data : List Event) : List Event :=
  data.filter (fun e => jsIncludes (jsSplit s ',') e.country)

def countryStage (q : QueryReq) (data : List Event) : List Event :=
  if truthy q.country then countryFilter (q.country.getD "") data else data

/-- The recency filter (api.js lines 179-181): `event.updated_at >
req.query.updated_after`, a number-string comparison that JS resolves
numerically after coercing the string. -/
def recencyFilter (s : String) (data : List Event) : List Event :=
  data.filter (fun e => jsGt e.updated_at (jsNumber s))

def recencyStage (q : QueryReq) (data : List Event) : List Event :=
  if truthy q.updated_after then recencyFilter (q.updated_after.getD "") data else data

/-- The distance assignment of the proximity loop (api.js lines 187-194):
`event.distance = distance([around[0], around[1]], [event.longitude,
event.latitude])`, where `dist` stands for the `@turf/distance`
great-circle function (an external library, taken as a parameter) and the
raw string tokens are coerced to numbers inside it. -/
def setDistance (dist : JSNum → JSNum → JSNum → JSNum → JSNum) (s : String) (e : Event) : Event :=
  { e with distance := some (dist (strTok (jsSplit s ',') 0) (strTok (jsSplit s ',') 1) e.longitude e.latitude) }

/-- The proximity filter (api.js lines 184-197): set `distance` on every
event, then keep the events with `event.distance < around[2]` (the radius
token coerced to a number). -/
def aroundFilter (dist : JSNum → JSNum → JSNum → JSNum → JSNum) (s : String)
    (data : List Event) : List Event :=
  (data.map (setDistance dist s)).filter
    (fun e => jsLtOpt e.distance (strTok (jsSplit s ',') 2))

def aroundStage (dist : JSNum → JSNum → JSNum → JSNum → JSNum) (q : QueryReq)
    (data : List Event) : List Event :=
  if truthy q.around then aroundFilter dist (q.around.getD "") data else data

/-- The strict order that lodash `compareAscending` induces on the
`distance` sort key: numbers ascending, then `undefined` (absent field),
then NaN. -/
def keyLt : Option JSNum → Option JSNum → Bool
  | some (some x), some (some y) => decide (x < y)
  | some (some _), some none => true
  | some (some _), none => true
  | none, some none => true
  | _, _ => false

/-- Stable insertion for the lodash sort: a later element goes after every
earlier element it is not strictly below. -/
def lodashInsert (a : Event) : List Event → List Event
  | [] => [a]
  | b :: bs => if keyLt a.distance b.distance then a :: b :: bs else b :: lodashInsert a bs

/-- The ranking `_.sortBy(data, ["distance"])` (api.js line 199): a stable ascending
sort by the `distance` property. -/
def sortByDistance (l : List Event) : List Event :=
  l.foldl (fun acc a => lodashInsert a acc) []

/-- The three outcomes of the handler: 400 with the error payload, 200 with
the event list, or 500. -/
inductive ApiResponse where
  | badRequest (errors : List ValidationError)
  | ok (events : List Event)
  | serverError
deriving DecidableEq

/-- The post-validation data pipeline of the handler (api.js lines
147-200): project, filter by country, recency and proximity, then sort. -/
def pipeline (dist : JSNum → JSNum → JSNum → JSNum → JSNum) (q : QueryReq)
    (items : List RawObject) : List Event :=
  sortByDistance (aroundStage dist q (recencyStage q (countryStage q (items.map projectEvent))))

/-- The whole `GET /v1/events` handler (api.js lines 56-204): validate and
return the 400 payload on any error, otherwise run the pipeline over the
remote listing result (`none` models a failed listing call, caught as 500;
a listing whose `items` field is absent behaves as the empty list). -/
def handleEvents (dist : JSNum → JSNum → JSNum → JSNum → JSNum) (q : QueryReq)
    (fetched : Option (List RawObject)) : ApiResponse :=
  if validationErrors q ≠ [] then ApiResponse.badRequest (validationErrors q)
  else
    match fetched with
    | some items => ApiResponse.ok (pipeline dist q items)
    | none => ApiResponse.serverError

/-! Concrete fixtures used to instantiate the theorems. -/

/-- A concrete stand-in for the external distance function. -/
def constDist : JSNum → JSNum → JSNum → JSNum → JSNum := fun _ _ _ _ => some 0

/-- A concrete raw listing object. -/
def o1 : RawObject :=
  ⟨"org1/ev1", "Event one", "FR", "2.35", "48.85",
   "1970-01-01T00:00:01.000Z", "1970-01-01T00:00:02.000Z"⟩

/-- A request with no parameter at all. -/
def qEmpty : QueryReq := ⟨none, none, none, none, none⟩

/-- A request whose only parameter is an empty `around=`. -/
def qEmptyAround : QueryReq := ⟨none, some "", none, none, none⟩

/-- A request with an invalid `around` (negative radius) and an invalid
`country` (lowercase, too short). -/
def qBadBoth : QueryReq := ⟨none, some "0,0,-1", some "x", none, none⟩

/-- A request whose only parameter is a non-numeric `updated_after`. -/
def qNanAfter : QueryReq := ⟨none, none, none, none, some "abc"⟩

/-- A request with a valid `around` parameter. -/
def qAroundOk : QueryReq := ⟨none, some "0,0,1", none, none, none⟩

/-- An event last updated at 1000 (in the handler's `updated_at` unit). -/
def ev1000 : Event := ⟨"a", "", some 0, some 1000, "FR", some 0, some 0, none⟩

/-- An event last updated at 1001. -/
def ev1001 : Event := ⟨"b", "", some 0, some 1001, "FR", some 0, some 0, none⟩

/-- An event located at the origin. -/
def evOrigin : Event := ⟨"o", "", some 0, some 0, "FR", some 0, some 0, none⟩

/-! Small lemmas about the JS comparison semantics. -/

lemma jsLt_none_left (x : JSNum) : jsLt none x = false := by cases x <;> rfl

lemma jsLt_none_right (x : JSNum) : jsLt x none = false := by cases x <;> rfl

lemma jsGt_none_left (x : JSNum) : jsGt none x = false := by cases x <;> rfl

lemma jsGt_none_right (x : JSNum) : jsGt x none = false := by cases x <;> rfl

lemma jsLe_none_left (x : JSNum) : jsLe none x = false := by cases x <;> rfl

lemma jsLe_none_right (x : JSNum) : jsLe x none = false := by cases x <;> rfl

/-- Membership in a conditional one-element error block. -/
lemma mem_ite_list {c : Prop} [Decidable c] {x y : ValidationError} :
    x ∈ (if c then [y] else []) ↔ c ∧ x = y := by
  split <;> simp_all

/-- The value `getTime(parseISO(s))` is exactly 1000 times the epoch-seconds value of
the same timestamp. -/
lemma getTime_eq_spec (s : String) :
    getTimeParseISO s = (specEpochSeconds s).map (fun x => 1000 * x) := by
  unfold getTimeParseISO specEpochSeconds
  cases h : isoParts s with
  | none => rfl
  | some p =>
    obtain ⟨⟨y, m, d⟩, hh, mi, se, ms⟩ := p
    simp only [Option.map_some']
    congr 1
    push_cast
    ring

/-- C1 (counterexample): contrary to the claim, a case (uppercase) error IS
emitted for the code `"xyz"` of the request `country=FR,1,xyz`. -/
theorem c1_counterexample :
    (⟨"wrong_country_param/xyz", "ISO 3166-1 alpha-2 country code must be in uppercase"⟩ :
      ValidationError) ∈ countryErrors "FR,1,xyz" := by
  with_unfolding_all decide

/-- C1 (amended): the request `country=FR,1,xyz` produces exactly FOUR
errors: a letter-presence error and a length error keyed
`wrong_country_param/1` for `"1"`, and a case error and a length error
keyed `wrong_country_param/xyz` for `"xyz"`; no error for `"FR"`. -/
theorem c1_amended_errors :
    countryErrors "FR,1,xyz" =
      [⟨"wrong_country_param/1", "ISO 3166-1 alpha-2 country code must be only letters"⟩,
       ⟨"wrong_country_param/1", "ISO 3166-1 alpha-2 country code must be 2-letter long"⟩,
       ⟨"wrong_country_param/xyz", "ISO 3166-1 alpha-2 country code must be in uppercase"⟩,
       ⟨"wrong_country_param/xyz", "ISO 3166-1 alpha-2 country code must be 2-letter long"⟩] := by
  with_unfolding_all decide

/-- C2 (code bug): the radius check of `around` is `around[2] < 0`, so a
radius of exactly 0 produces NO error at all — `around=0,0,0` passes
validation and the request reaches the 200 path — although the code's own
error message ("Distance must be greater than 0") and the claim require a
400 here. -/
theorem c2_radius_zero_accepted :
    aroundErrors "0,0,0" = [] ∧
    handleEvents constDist ⟨none, some "0,0,0", none, none, none⟩ (some []) =
      ApiResponse.ok [] := by
  with_unfolding_all decide

/-- C3 (counterexample): the projected `created_at`/`updated_at` are NOT
the epoch time in seconds of the raw timestamps — for the object `o1`
(timeCreated `1970-01-01T00:00:01.000Z`) the projection stores 1000 where
the epoch-seconds reading is 1. -/
theorem c3_counterexample :
    ¬ ((projectEvent o1).created_at = specEpochSeconds o1.timeCreated ∧
       (projectEvent o1).updated_at = specEpochSeconds o1.updated) := by
  with_unfolding_all decide

/-- C3 (amended): for every raw object, the projected `created_at` and
`updated_at` equal the epoch time in MILLISECONDS of the ISO-8601
timestamps `timeCreated` and `updated` — that is, 1000 times their
epoch-seconds value (date-fns `getTime` returns milliseconds). -/
theorem c3_amended (o : RawObject) :
    (projectEvent o).created_at = (specEpochSeconds o.timeCreated).map (fun x => 1000 * x) ∧
    (projectEvent o).updated_at = (specEpochSeconds o.updated).map (fun x => 1000 * x) :=
  ⟨getTime_eq_spec o.timeCreated, getTime_eq_spec o.updated⟩

/-- C4: if any of the first three `around` tokens fails to parse as a
number (`isNaN`), the validator emits the parse error exactly once, and the
range error of each non-numeric position is NOT emitted, because the JS
comparisons against NaN all evaluate to false. -/
theorem c4_nonnumeric_around (s : String)
    (h : jsIdx (aroundTokens s) 0 = none ∨ jsIdx (aroundTokens s) 1 = none ∨
         jsIdx (aroundTokens s) 2 = none) :
    (aroundErrors s).count aroundParseError = 1 ∧
    (jsIdx (aroundTokens s) 0 = none → aroundLonError ∉ aroundErrors s) ∧
    (jsIdx (aroundTokens s) 1 = none → aroundLatError ∉ aroundErrors s) ∧
    (jsIdx (aroundTokens s) 2 = none → aroundRadError ∉ aroundErrors s) := by
  have hparse : ((jsIdx (aroundTokens s) 0).isNone || (jsIdx (aroundTokens s) 1).isNone ||
      (jsIdx (aroundTokens s) 2).isNone || (aroundTokens s).length != 3) = true := by
    rcases h with h | h | h <;> simp [h]
  refine ⟨?_, ?_, ?_, ?_⟩
  · unfold aroundErrors
    simp only [hparse]
    cases hB : (jsLe (jsIdx (aroundTokens s) 0) (some (-180)) ||
        jsGt (jsIdx (aroundTokens s) 0) (some 180)) <;>
      cases hC : (jsLt (jsIdx (aroundTokens s) 1) (some (-90)) ||
          jsGt (jsIdx (aroundTokens s) 1) (some 90)) <;>
        cases hD : jsLt (jsIdx (aroundTokens s) 2) (some 0) <;>
          with_unfolding_all decide
  · intro h0
    have hB : (jsLe (jsIdx (aroundTokens s) 0) (some (-180)) ||
        jsGt (jsIdx (aroundTokens s) 0) (some 180)) = false := by
      rw [h0]; simp [jsLe_none_left, jsGt_none_left]
    unfold aroundErrors
    simp only [hparse, hB]
    cases hC : (jsLt (jsIdx (aroundTokens s) 1) (some (-90)) ||
        jsGt (jsIdx (aroundTokens s) 1) (some 90)) <;>
      cases hD : jsLt (jsIdx (aroundTokens s) 2) (some 0) <;>
        with_unfolding_all decide
  · intro h1
    have hC : (jsLt (jsIdx (aroundTokens s) 1) (some (-90)) ||
        jsGt (jsIdx (aroundTokens s) 1) (some 90)) = false := by
      rw [h1]; simp [jsLt_none_left, jsGt_none_left]
    unfold aroundErrors
    simp only [hparse, hC]
    cases hB : (jsLe (jsIdx (aroundTokens s) 0) (some (-180)) ||
        jsGt (jsIdx (aroundTokens s) 0) (some 180)) <;>
      cases hD : jsLt (jsIdx (aroundTokens s) 2) (some 0) <;>
        with_unfolding_all decide
  · intro h2
    have hD : jsLt (jsIdx (aroundTokens s) 2) (some 0) = false := by
      rw [h2]; simp [jsLt_none_left]
    unfold aroundErrors
    simp only [hparse, hD]
    cases hB : (jsLe (jsIdx (aroundTokens s) 0) (some (-180)) ||
        jsGt (jsIdx (aroundTokens s) 0) (some 180)) <;>
      cases hC : (jsLt (jsIdx (aroundTokens s) 1) (some (-90)) ||
          jsGt (jsIdx (aroundTokens s) 1) (some 90)) <;>
        with_unfolding_all decide

/-- C4 (witness): the request `around=x,0,0` gets exactly one parse error
and no longitude range error. -/
theorem c4_witness :
    (aroundErrors "x,0,0").count aroundParseError = 1 ∧
    aroundLonError ∉ aroundErrors "x,0,0" := by
  have h := c4_nonnumeric_around "x,0,0" (Or.inl (by with_unfolding_all decide))
  exact ⟨h.1, h.2.1 (by with_unfolding_all decide)⟩

/-- Every `around` error carries the code `wrong_around_param`. -/
lemma mem_aroundErrors_code {s : String} {e : ValidationError} (he : e ∈ aroundErrors s) :
    e.code = "wrong_around_param" := by
  unfold aroundErrors at he
  simp only [List.mem_append] at he
  rcases he with ((h | h) | h) | h <;> split at h <;>
    simp only [List.mem_singleton, List.not_mem_nil] at h <;> subst h <;> rfl

/-- Every `country` error carries a code of the form
`wrong_country_param/<code>`. -/
lemma mem_countryErrors_code {s : String} {e : ValidationError} (he : e ∈ countryErrors s) :
    ∃ c, e.code = "wrong_country_param/" ++ c := by
  unfold countryErrors at he
  rcases List.mem_bind.mp he with ⟨c, _, hc⟩
  refine ⟨c, ?_⟩
  unfold countryCodeErrors at hc
  simp only [List.mem_append] at hc
  rcases hc with (h | h) | h <;> split at h <;>
    simp only [List.mem_singleton, List.not_mem_nil] at h <;> subst h <;> rfl

/-- C5: validation is non-fail-fast — when both the `around` and the
`country` parameter are invalid, the handler returns one 400 response whose
error list contains a `wrong_around_param` error AND a
`wrong_country_param/<code>` error. -/
theorem c5_both_errors (dist : JSNum → JSNum → JSNum → JSNum → JSNum) (q : QueryReq)
    (fetched : Option (List RawObject))
    (ha : truthy q.around = true) (hc : truthy q.country = true)
    (hae : aroundErrors (q.around.getD "") ≠ []) (hce : countryErrors (q.country.getD "") ≠ []) :
    handleEvents dist q fetched = ApiResponse.badRequest (validationErrors q) ∧
    (∃ e ∈ validationErrors q, e.code = "wrong_around_param") ∧
    (∃ e ∈ validationErrors q, ∃ c, e.code = "wrong_country_param/" ++ c) := by
  have hA : (if truthy q.around then aroundErrors (q.around.getD "") else []) =
      aroundErrors (q.around.getD "") := by simp [ha]
  have hC : (if truthy q.country then countryErrors (q.country.getD "") else []) =
      countryErrors (q.country.getD "") := by simp [hc]
  have hval : ∀ e, e ∈ aroundErrors (q.around.getD "") ∨ e ∈ countryErrors (q.country.getD "") →
      e ∈ validationErrors q := by
    intro e he
    unfold validationErrors
    rw [hA, hC]
    rcases he with he | he
    · exact List.mem_append_left _ (List.mem_append_left _ (List.mem_append_right _ he))
    · exact List.mem_append_left _ (List.mem_append_right _ he)
  have hne : validationErrors q ≠ [] := by
    intro hcontra
    obtain ⟨e, he⟩ := List.exists_mem_of_ne_nil _ hae
    exact List.not_mem_nil e (hcontra ▸ hval e (Or.inl he))
  refine ⟨?_, ?_, ?_⟩
  · unfold handleEvents
    rw [if_pos hne]
  · obtain ⟨e, he⟩ := List.exists_mem_of_ne_nil _ hae
    exact ⟨e, hval e (Or.inl he), mem_aroundErrors_code he⟩
  · obtain ⟨e, he⟩ := List.exists_mem_of_ne_nil _ hce
    exact ⟨e, hval e (Or.inr he), mem_countryErrors_code he⟩

/-- C5 (witness): the request `around=0,0,-1&country=x` gets one 400 with
both error families present. -/
theorem c5_witness :
    handleEvents constDist qBadBoth (some []) = ApiResponse.badRequest (validationErrors qBadBoth) ∧
    (∃ e ∈ validationErrors qBadBoth, e.code = "wrong_around_param") ∧
    (∃ e ∈ validationErrors qBadBoth, ∃ c, e.code = "wrong_country_param/" ++ c) :=
  c5_both_errors constDist qBadBoth (some []) (by with_unfolding_all decide)
    (by with_unfolding_all decide) (by with_unfolding_all decide) (by with_unfolding_all decide)

/-- C6: with a numeric `updated_after` value `t`, the recency filter keeps
an event whose `updated_at` is the number `u` if and only if `u > t` —
a numeric comparison (JS coerces the parameter string), not a lexical
one. -/
theorem c6_recency_filter (s : String) (t : ℚ) (ht : jsNumber s = some t)
    (data : List Event) (e : Event) (u : ℚ) (hu : e.updated_at = some u) :
    e ∈ recencyFilter s data ↔ (e ∈ data ∧ t < u) := by
  unfold recencyFilter
  simp only [List.mem_filter, ht, hu, jsGt, decide_eq_true_iff]

/-- C6 (witness): `updated_after=1000` keeps the event with
`updated_at = 1001` and drops the one with `updated_at = 1000`. -/
theorem c6_witness :
    ev1001 ∈ recencyFilter "1000" [ev1000, ev1001] ∧
    ev1000 ∉ recencyFilter "1000" [ev1000, ev1001] := by
  constructor
  · exact (c6_recency_filter "1000" 1000 (by with_unfolding_all decide) [ev1000, ev1001]
      ev1001 1001 rfl).mpr ⟨by simp, by norm_num⟩
  · intro hmem
    have h2 := (c6_recency_filter "1000" 1000 (by with_unfolding_all decide) [ev1000, ev1001]
      ev1000 1000 rfl).mp hmem
    exact absurd h2.2 (by norm_num)

/-- C7: when `around` is present (truthy), an event is in the output of the
proximity stage iff it is some surviving input event with the library
distance from the requested origin to the event's coordinates stored in its
`distance` field, and that stored distance is strictly below the requested
radius (so an event exactly at the radius is excluded).  `dist` is the
`@turf/distance` great-circle function, universally quantified. -/
theorem c7_around_filter (dist : JSNum → JSNum → JSNum → JSNum → JSNum) (q : QueryReq)
    (ha : truthy q.around = true) (data : List Event) (e : Event) :
    e ∈ aroundStage dist q data ↔
      ∃ e0 ∈ data, e = setDistance dist (q.around.getD "") e0 ∧
        jsLtOpt (setDistance dist (q.around.getD "") e0).distance
          (strTok (jsSplit (q.around.getD "") ',') 2) = true := by
  unfold aroundStage
  rw [if_pos ha]
  unfold aroundFilter
  simp only [List.mem_filter, List.mem_map]
  constructor
  · rintro ⟨⟨e0, he0, rfl⟩, hp⟩
    exact ⟨e0, he0, rfl, hp⟩
  · rintro ⟨e0, he0, rfl, hp⟩
    exact ⟨⟨e0, he0, rfl⟩, hp⟩

/-- C7 (witness): with `around=0,0,1` and the stand-in distance function,
the origin event is kept, carrying its stored distance. -/
theorem c7_witness :
    setDistance constDist "0,0,1" evOrigin ∈ aroundStage constDist qAroundOk [evOrigin] :=
  (c7_around_filter constDist qAroundOk (by with_unfolding_all decide) [evOrigin] _).mpr
    ⟨evOrigin, List.mem_singleton.mpr rfl, rfl, by with_unfolding_all decide⟩

/-- Inserting an element that is not strictly below any list element puts
it at the end (stability of the lodash sort). -/
lemma lodashInsert_of_none (a : Event) (l : List Event) (ha : a.distance = none)
    (hl : ∀ e ∈ l, e.distance = none) : lodashInsert a l = l ++ [a] := by
  induction l with
  | nil => rfl
  | cons b bs ih =>
    have hb : b.distance = none := hl b (List.mem_cons_self b bs)
    have hlt : keyLt a.distance b.distance = false := by rw [ha, hb]; rfl
    simp only [lodashInsert, hlt, Bool.false_eq_true, if_false, List.cons_append]
    exact congrArg (b :: ·) (ih (fun e he => hl e (List.mem_cons_of_mem b he)))

/-- When no event carries a `distance`, the lodash sort is the identity. -/
lemma sortByDistance_of_none (l : List Event) (h : ∀ e ∈ l, e.distance = none) :
    sortByDistance l = l := by
  suffices haux : ∀ (l acc : List Event), (∀ e ∈ l, e.distance = none) →
      (∀ e ∈ acc, e.distance = none) →
      l.foldl (fun acc a => lodashInsert a acc) acc = acc ++ l by
    simpa [sortByDistance] using haux l [] h (by simp)
  intro l
  induction l with
  | nil => intro acc _ _; simp
  | cons a tl ih =>
    intro acc hl hacc
    have haa : a.distance = none := hl a (List.mem_cons_self a tl)
    simp only [List.foldl_cons]
    rw [lodashInsert_of_none a acc haa hacc,
      ih (acc ++ [a]) (fun e he => hl e (List.mem_cons_of_mem a he)) ?_]
    · simp
    · intro e he
      rcases List.mem_append.mp he with h1 | h1
      · exact hacc e h1
      · rw [List.mem_singleton.mp h1]; exact haa

lemma mem_lodashInsert {a e : Event} {l : List Event} :
    e ∈ lodashInsert a l ↔ e = a ∨ e ∈ l := by
  induction l with
  | nil => simp [lodashInsert]
  | cons b bs ih =>
    simp only [lodashInsert]
    split
    · simp [List.mem_cons]
    · simp only [List.mem_cons, ih]
      tauto

/-- The lodash sort is a permutation: it preserves membership. -/
lemma mem_sortByDistance {e : Event} {l : List Event} : e ∈ sortByDistance l ↔ e ∈ l := by
  suffices haux : ∀ (l acc : List Event),
      (e ∈ l.foldl (fun acc a => lodashInsert a acc) acc ↔ e ∈ acc ∨ e ∈ l) by
    simpa [sortByDistance] using haux l []
  intro l
  induction l with
  | nil => intro acc; simp
  | cons a tl ih =>
    intro acc
    simp only [List.foldl_cons, ih, mem_lodashInsert, List.mem_cons]
    tauto

lemma mem_of_countryStage {q : QueryReq} {data : List Event} {e : Event}
    (he : e ∈ countryStage q data) : e ∈ data := by
  unfold countryStage at he
  split at he
  · unfold countryFilter at he
    exact (List.mem_filter.mp he).1
  · exact he

lemma mem_of_recencyStage {q : QueryReq} {data : List Event} {e : Event}
    (he : e ∈ recencyStage q data) : e ∈ data := by
  unfold recencyStage at he
  split at he
  · unfold recencyFilter at he
    exact (List.mem_filter.mp he).1
  · exact he

/-- Projected events carry no `distance` field. -/
lemma base_distance_none {items : List RawObject} {e : Event}
    (he : e ∈ items.map projectEvent) : e.distance = none := by
  rcases List.mem_map.mp he with ⟨o, _, rfl⟩
  rfl

/-- C8: without an `around` parameter no event carries a `distance`, the
stable sort is a no-op, and the 200 body is exactly the country- and
recency-filtered projection of the remote listing, in listing order. -/
theorem c8_no_around_order (dist : JSNum → JSNum → JSNum → JSNum → JSNum) (q : QueryReq)
    (items : List RawObject) (hv : validationErrors q = []) (ha : truthy q.around = false) :
    handleEvents dist q (some items) =
      ApiResponse.ok (recencyStage q (countryStage q (items.map projectEvent))) := by
  have hnone : ∀ e ∈ recencyStage q (countryStage q (items.map projectEvent)),
      e.distance = none :=
    fun e he => base_distance_none (mem_of_countryStage (mem_of_recencyStage he))
  unfold handleEvents
  rw [if_neg (by simp [hv])]
  unfold pipeline aroundStage
  rw [ha]
  simp only [Bool.false_eq_true, if_false]
  exact congrArg ApiResponse.ok (sortByDistance_of_none _ hnone)

/-- C8 (witness): a parameterless request returns the bare projected
listing in order. -/
theorem c8_witness :
    handleEvents constDist qEmpty (some [o1]) =
      ApiResponse.ok (recencyStage qEmpty (countryStage qEmpty ([o1].map projectEvent))) :=
  c8_no_around_order constDist qEmpty [o1] rfl rfl

/-- C9 (amended): in every 200 response, an event carries a `distance`
field iff the `around` parameter was truthy (present AND non-empty) — the
condition under which the proximity filter executes. -/
theorem c9_distance_iff_around (dist : JSNum → JSNum → JSNum → JSNum → JSNum) (q : QueryReq)
    (items : List RawObject) (evs : List Event)
    (h : handleEvents dist q (some items) = ApiResponse.ok evs)
    (e : Event) (he : e ∈ evs) : e.distance.isSome = truthy q.around := by
  unfold handleEvents at h
  by_cases hv : validationErrors q ≠ []
  · rw [if_pos hv] at h; cases h
  · rw [if_neg hv] at h
    injection h with h
    subst h
    unfold pipeline at he
    have he2 := mem_sortByDistance.mp he
    cases haT : truthy q.around with
    | false =>
      unfold aroundStage at he2
      rw [haT] at he2
      simp only [Bool.false_eq_true, if_false] at he2
      rw [base_distance_none (mem_of_countryStage (mem_of_recencyStage he2))]
      rfl
    | true =>
      unfold aroundStage at he2
      rw [haT] at he2
      simp only [if_true] at he2
      unfold aroundFilter at he2
      obtain ⟨e0, _, rfl⟩ := List.mem_map.mp (List.mem_filter.mp he2).1
      rfl

/-- C9 (witness): a request without `around` yields events without a
`distance` field. -/
theorem c9_witness : (projectEvent o1).distance.isSome = truthy qEmpty.around :=
  c9_distance_iff_around constDist qEmpty [o1] [projectEvent o1] rfl (projectEvent o1)
    (List.mem_singleton.mpr rfl)

/-- C9 (counterexample): "present" is not the right condition — with the
parameter present but EMPTY (`around=`), the 200 response's event carries
no `distance` although the around parameter is present in the request. -/
theorem c9_counterexample :
    handleEvents constDist qEmptyAround (some [o1]) = ApiResponse.ok [projectEvent o1] ∧
    (projectEvent o1).distance.isSome ≠ qEmptyAround.around.isSome := by
  constructor
  · rfl
  · with_unfolding_all decide

/-- A NaN `updated_after` threshold empties the recency filter: every
comparison against NaN is false. -/
lemma recencyFilter_nan (s : String) (hs : jsNumber s = none) (data : List Event) :
    recencyFilter s data = [] := by
  unfold recencyFilter
  simp only [hs]
  induction data with
  | nil => rfl
  | cons a tl ih =>
    rw [List.filter_cons, jsGt_none_right]
    simpa using ih

/-- C10: `updated_after` is never validated; a request whose only anomaly
is a non-numeric `updated_after` is a 200 (not a 400) whose body is the
empty array, because the recency comparison against NaN excludes every
event.  The first conjunct states that validation ignores that parameter
entirely. -/
theorem c10_updated_after_unvalidated (dist : JSNum → JSNum → JSNum → JSNum → JSNum)
    (q : QueryReq) (items : List RawObject) (s : String)
    (hv : validationErrors q = []) (hua : q.updated_after = some s) (hs : jsNumber s = none) :
    (∀ v, validationErrors { q with updated_after := v } = validationErrors q) ∧
    handleEvents dist q (some items) = ApiResponse.ok [] := by
  refine ⟨fun v => rfl, ?_⟩
  have ht : truthy q.updated_after = true := by
    rw [hua]
    show (!s.data.isEmpty) = true
    cases hd : s.data with
    | nil =>
      exfalso
      have : jsNumberC s.data = none := hs
      rw [hd] at this
      exact absurd this (by with_unfolding_all decide)
    | cons c cs => rfl
  unfold handleEvents
  rw [if_neg (by simp [hv])]
  show ApiResponse.ok (pipeline dist q items) = ApiResponse.ok []
  unfold pipeline
  have hrec : recencyStage q (countryStage q (items.map projectEvent)) = [] := by
    unfold recencyStage
    rw [ht]
    simp only [if_true, hua, Option.getD_some]
    exact recencyFilter_nan s hs _
  rw [hrec]
  have har : aroundStage dist q [] = [] := by
    unfold aroundStage
    split <;> rfl
  rw [har]
  rfl

/-- C10 (witness): `updated_after=abc` alone yields `200 []`. -/
theorem c10_witness : handleEvents constDist qNanAfter (some [o1]) = ApiResponse.ok [] :=
  (c10_updated_after_unvalidated constDist qNanAfter [o1] "abc" rfl rfl
    (by with_unfolding_all decide)).2

end Malrot
